import Mathlib

/-!
# Smart-playlist rule editor dialog

A shallow embedding of `xbmc/dialogs/GUIDialogSmartPlaylistRule.cpp` and the
properties of its handlers.  The dialog's own members and handlers are
translated from the source file.  Everything the file reaches through headers
that are not part of it (the rule class, the field and operator tables, the
localised strings, the media databases, the generic select dialog and the
file browser) is a field of `Env` or a value supplied by the user interaction
of one event (`UserInput`).

Handlers return `Option`: `none` stands for "no result" (an out-of-range
vector access, the failed `assert(false)` of `OnBrowse`, or a modal loop that
is never closed).
-/

namespace CGUIDialogSmartPlaylistRule

/-! ## Types declared in headers outside the file -/

/-- Enumerators of `CDatabaseQueryRule::FieldType` the dialog switches over. -/
inductive FieldType
  | TEXT_FIELD
  | REAL_FIELD
  | NUMERIC_FIELD
  | DATE_FIELD
  | PLAYLIST_FIELD
  | SECONDS_FIELD
  | BOOLEAN_FIELD
  | TEXTIN_FIELD
deriving DecidableEq, Repr

/-- Enumerators of `CDatabaseQueryRule::SearchOperator`.  The named ones are
those the dialog mentions; `OPERATOR_OTHER` stands for every enumerator of the
header that the dialog never names. -/
inductive SearchOperator
  | OPERATOR_EQUALS
  | OPERATOR_DOES_NOT_EQUAL
  | OPERATOR_CONTAINS
  | OPERATOR_DOES_NOT_CONTAIN
  | OPERATOR_STARTS_WITH
  | OPERATOR_ENDS_WITH
  | OPERATOR_GREATER_THAN
  | OPERATOR_LESS_THAN
  | OPERATOR_AFTER
  | OPERATOR_BEFORE
  | OPERATOR_IN_THE_LAST
  | OPERATOR_NOT_IN_THE_LAST
  | OPERATOR_TRUE
  | OPERATOR_FALSE
  | OPERATOR_OTHER (code : Nat)
deriving DecidableEq, Repr

/-- Field identifiers (`m_rule.m_field`).  `FieldNone` is the value `0` that
`UpdateButtons` tests for; the other named constructors are the identifiers
the dialog mentions; `FieldOther` stands for every further identifier. -/
inductive Field
  | FieldNone
  | FieldGenre
  | FieldYear
  | FieldStudio
  | FieldSource
  | FieldRole
  | FieldCountry
  | FieldArtist
  | FieldAlbumArtist
  | FieldAlbum
  | FieldActor
  | FieldOrigYear
  | FieldDirector
  | FieldWriter
  | FieldTvShowTitle
  | FieldTitle
  | FieldPlaylist
  | FieldVirtualFolder
  | FieldPath
  | FieldSet
  | FieldTag
  | FieldOther (id : Nat)
deriving DecidableEq, Repr

/-- Values of `VideoDbContentType` used by `OnBrowse`. -/
inductive VideoDbContentType
  | MOVIES
  | TVSHOWS
  | MUSICVIDEOS
  | EPISODES
deriving DecidableEq, Repr

/-- Values of `CGUIEditControl::INPUT_TYPE` used by `UpdateButtons`. -/
inductive INPUT_TYPE
  | INPUT_TYPE_TEXT
  | INPUT_TYPE_DATE
  | INPUT_TYPE_SECONDS
  | INPUT_TYPE_NUMBER
deriving DecidableEq, Repr

/-- The two members of a `CFileItem` the dialog reads or writes. -/
structure CFileItem where
  path : String
  label : String
deriving DecidableEq, Repr

/-- What `OnBrowse` reads from a successfully loaded `CSmartPlaylist`. -/
structure CSmartPlaylist where
  type : String
  name : String
  group : String
  groupMixed : Bool
deriving DecidableEq, Repr

/-- The members of `CSmartPlaylistRule` the dialog touches. -/
structure Rule where
  m_field : Field
  m_operator : SearchOperator
  m_parameter : List String
deriving DecidableEq, Repr

/-- The catalogue calls of `OnBrowse`, with the arguments the source passes. -/
inductive DbQuery
  | videoGetGenresNav (path : String) (type : VideoDbContentType)
  | musicGetGenresNav (path : String)
  | musicGetSourcesNav (path : String)
  | musicGetRolesNav (path : String)
  | videoGetCountriesNav (path : String) (type : VideoDbContentType)
  | musicGetArtistsNav (path : String) (albumArtistsOnly : Bool) (idGenre : Int)
  | videoGetMusicVideoArtistsByName (name : String)
  | musicGetAlbumsNav (path : String)
  | videoGetMusicVideoAlbumsByName (name : String)
  | videoGetActorsNav (path : String) (type : VideoDbContentType)
  | musicGetYearsNav (path : String)
  | videoGetYearsNav (path : String) (type : VideoDbContentType)
  | videoGetDirectorsNav (path : String) (type : VideoDbContentType)
  | videoGetStudiosNav (path : String) (type : VideoDbContentType)
  | videoGetWritersNav (path : String) (type : VideoDbContentType)
  | videoGetTvShowsNav (path : String)
  | musicGetSongsNav (path : String) (idGenre idArtist idAlbum : Int)
  | videoGetMoviesNav (path : String)
  | videoGetEpisodesNav (path : String)
  | videoGetMusicVideosNav (path : String)
  | videoGetSetsNav (path : String) (type : VideoDbContentType)
  | videoGetTagsNav (path : String) (type : VideoDbContentType)
  | GetDirectory (path : String) (mask : String)
deriving DecidableEq, Repr

/-- Everything the dialog calls that lives outside the source file.  A query
receives the item list it is handed by reference and returns the list it
leaves behind.  `Load` gives the result of `playlist.Load(path)` on a fresh
`CSmartPlaylist` together with the object it leaves behind. -/
structure Env where
  GetFields : String → List Field
  GetFieldType : Field → FieldType
  GetLocalizedField : Field → String
  GetLocalizedOperator : SearchOperator → String
  IsFieldBrowseable : Field → Bool
  IsMusicType : String → Bool
  IsVideoType : String → Bool
  CheckTypeCompatibility : String → String → Bool
  Load : String → Bool × CSmartPlaylist
  query : DbQuery → List CFileItem → List CFileItem
  FormatLabel : CFileItem → CFileItem
  SortByLabel : Bool → List CFileItem → List CFileItem
  ignoreTheWhenSorting : Bool
  GetParameter : List String → String
  splitValue : String → List String

/-- The widget state the dialog writes through `SET_CONTROL_LABEL`,
`SET_CONTROL_LABEL2`, `CONTROL_ENABLE_ON_CONDITION` and `GUI_MSG_SET_TYPE`. -/
structure Controls where
  fieldLabel : String
  operatorLabel : String
  valueLabel2 : String
  valueEnabled : Bool
  browseEnabled : Bool
  okEnabled : Bool
  valueType : INPUT_TYPE
deriving DecidableEq, Repr

/-- The dialog object: its three members, the open/closed state of the
`CGUIDialog` base, and its controls. -/
structure Dialog where
  m_rule : Rule
  m_type : String
  m_cancelled : Bool
  m_active : Bool
  controls : Controls
deriving DecidableEq, Repr

/-- What the user does in the sub-dialog or control an event opens: the text
of the value edit control, the outcome of the select dialog
(`IsConfirmed`, `GetSelectedItem`, `GetSelectedItems`) and the outcome of the
directory chooser (`none` when it is dismissed). -/
structure UserInput where
  text : String
  confirmed : Bool
  selectedItem : Int
  selectedItems : List Int
  directory : Option String
deriving DecidableEq, Repr

open FieldType SearchOperator Field VideoDbContentType INPUT_TYPE

/-! ## Operators -/

/-- The helper `OperatorLabel` of the unnamed namespace. -/
def OperatorLabel (env : Env) (op : SearchOperator) : String × SearchOperator :=
  (env.GetLocalizedOperator op, op)

/-- The call `labels.push_back(x)`. -/
def push_back {α : Type} (labels : List α) (x : α) : List α :=
  labels ++ [x]

/-- Method `CGUIDialogSmartPlaylistRule::GetValidOperators`. -/
def GetValidOperators (env : Env) (rule : Rule) : List (String × SearchOperator) :=
  let labels : List (String × SearchOperator) := []
  match env.GetFieldType rule.m_field with
  | TEXT_FIELD =>
    let labels := push_back labels (OperatorLabel env OPERATOR_EQUALS)
    let labels := push_back labels (OperatorLabel env OPERATOR_DOES_NOT_EQUAL)
    let labels := push_back labels (OperatorLabel env OPERATOR_CONTAINS)
    let labels := push_back labels (OperatorLabel env OPERATOR_DOES_NOT_CONTAIN)
    let labels := push_back labels (OperatorLabel env OPERATOR_STARTS_WITH)
    let labels := push_back labels (OperatorLabel env OPERATOR_ENDS_WITH)
    labels
  | REAL_FIELD | NUMERIC_FIELD | SECONDS_FIELD =>
    let labels := push_back labels (OperatorLabel env OPERATOR_EQUALS)
    let labels := push_back labels (OperatorLabel env OPERATOR_DOES_NOT_EQUAL)
    let labels := push_back labels (OperatorLabel env OPERATOR_GREATER_THAN)
    let labels := push_back labels (OperatorLabel env OPERATOR_LESS_THAN)
    labels
  | DATE_FIELD =>
    let labels := push_back labels (OperatorLabel env OPERATOR_AFTER)
    let labels := push_back labels (OperatorLabel env OPERATOR_BEFORE)
    let labels := push_back labels (OperatorLabel env OPERATOR_IN_THE_LAST)
    let labels := push_back labels (OperatorLabel env OPERATOR_NOT_IN_THE_LAST)
    labels
  | PLAYLIST_FIELD | TEXTIN_FIELD =>
    let labels := push_back labels (OperatorLabel env OPERATOR_EQUALS)
    let labels := push_back labels (OperatorLabel env OPERATOR_DOES_NOT_EQUAL)
    labels
  | BOOLEAN_FIELD =>
    let labels := push_back labels (OperatorLabel env OPERATOR_TRUE)
    let labels := push_back labels (OperatorLabel env OPERATOR_FALSE)
    labels

/-- The operator table of the specification (section 4.2), row by row. -/
def specValidOperators : FieldType → List SearchOperator
  | TEXT_FIELD => [OPERATOR_EQUALS, OPERATOR_DOES_NOT_EQUAL, OPERATOR_CONTAINS,
      OPERATOR_DOES_NOT_CONTAIN, OPERATOR_STARTS_WITH, OPERATOR_ENDS_WITH]
  | NUMERIC_FIELD => [OPERATOR_EQUALS, OPERATOR_DOES_NOT_EQUAL, OPERATOR_GREATER_THAN,
      OPERATOR_LESS_THAN]
  | REAL_FIELD => [OPERATOR_EQUALS, OPERATOR_DOES_NOT_EQUAL, OPERATOR_GREATER_THAN,
      OPERATOR_LESS_THAN]
  | SECONDS_FIELD => [OPERATOR_EQUALS, OPERATOR_DOES_NOT_EQUAL, OPERATOR_GREATER_THAN,
      OPERATOR_LESS_THAN]
  | DATE_FIELD => [OPERATOR_AFTER, OPERATOR_BEFORE, OPERATOR_IN_THE_LAST,
      OPERATOR_NOT_IN_THE_LAST]
  | PLAYLIST_FIELD => [OPERATOR_EQUALS, OPERATOR_DOES_NOT_EQUAL]
  | TEXTIN_FIELD => [OPERATOR_EQUALS, OPERATOR_DOES_NOT_EQUAL]
  | BOOLEAN_FIELD => [OPERATOR_TRUE, OPERATOR_FALSE]

/-! ## The rule class and the dialog base -/

/-- Modelled from the spec: `CDatabaseQueryRule::SetParameter(const std::string&)`
is declared outside the source file.  The spec says that the `SetParameter("")`
of `OnField` clears the parameter and that the value edit writes the typed text
into the parameter; how a non-empty text is cut into values is left to
`Env.splitValue`. -/
def SetParameter (env : Env) (rule : Rule) (value : String) : Rule :=
  { rule with m_parameter := if value = "" then [] else env.splitValue value }

/-- Modelled from the spec: `CGUIDialog::Close` is declared outside the source
file.  It ends the modal session of the dialog. -/
def Close (d : Dialog) : Dialog :=
  { d with m_active := false }

/-- Modelled from the spec: `CGUIDialog::OnBack` is declared outside the source
file.  Back navigation closes the dialog. -/
def CGUIDialog_OnBack (d : Dialog) (_actionID : Int) : Dialog :=
  Close d

/-- The constructor body, applied to the object as member initialisation left
it: it clears `m_cancelled` (`m_loadType` belongs to the base class and is not
kept in `Dialog`). -/
def ctor (base : Dialog) : Dialog :=
  { base with m_cancelled := false }

/-- Method `CGUIDialogSmartPlaylistRule::OnBack`. -/
def OnBack (d : Dialog) (actionID : Int) : Dialog :=
  let d := { d with m_cancelled := true }
  CGUIDialog_OnBack d actionID

/-- Method `CGUIDialogSmartPlaylistRule::OnOK`. -/
def OnOK (d : Dialog) : Dialog :=
  let d := { d with m_cancelled := false }
  Close d

/-- Method `CGUIDialogSmartPlaylistRule::OnCancel`. -/
def OnCancel (d : Dialog) : Dialog :=
  let d := { d with m_cancelled := true }
  Close d

/-! ## View refresh -/

/-- The `switch (fieldType)` of `UpdateButtons` that picks the input type of the
value control. -/
def UpdateButtons_inputType (fieldType : FieldType) (m_operator : SearchOperator) :
    INPUT_TYPE :=
  match fieldType with
  | TEXT_FIELD | PLAYLIST_FIELD | TEXTIN_FIELD | REAL_FIELD | NUMERIC_FIELD =>
    INPUT_TYPE_TEXT
  | DATE_FIELD =>
    if m_operator = OPERATOR_IN_THE_LAST ∨ m_operator = OPERATOR_NOT_IN_THE_LAST then
      INPUT_TYPE_TEXT
    else
      INPUT_TYPE_DATE
  | SECONDS_FIELD => INPUT_TYPE_SECONDS
  | BOOLEAN_FIELD => INPUT_TYPE_NUMBER

/-- The first statement of `UpdateButtons`: an unset field (`m_field == 0`)
becomes `GetFields(m_type)[0]`; `none` when that vector is empty. -/
def UpdateButtons_defaultField (env : Env) (d : Dialog) : Option Rule :=
  if d.m_rule.m_field = FieldNone then
    match (env.GetFields d.m_type)[0]? with
    | none => none
    | some f => some { d.m_rule with m_field := f }
  else
    some d.m_rule

/-- Method `CGUIDialogSmartPlaylistRule::UpdateButtons`. -/
def UpdateButtons (env : Env) (d : Dialog) : Option Dialog :=
  match UpdateButtons_defaultField env d with
  | none => none
  | some m_rule =>
    let fieldType := env.GetFieldType m_rule.m_field
    some { d with
      m_rule := m_rule
      controls := { d.controls with
        fieldLabel := env.GetLocalizedField m_rule.m_field
        valueEnabled := decide (fieldType ≠ BOOLEAN_FIELD)
        browseEnabled := env.IsFieldBrowseable m_rule.m_field
        operatorLabel := (OperatorLabel env m_rule.m_operator).1
        valueLabel2 := env.GetParameter m_rule.m_parameter
        valueType := UpdateButtons_inputType fieldType m_rule.m_operator } }

/-! ## Field and operator pickers -/

/-- The loop of `OnField` that fills the picker: `selected` ends as the index of
the last entry equal to the current field, or stays `-1`. -/
def OnField_selected (fields : List Field) (m_field : Field) : Int :=
  fields.enum.foldl (fun selected p => if p.2 = m_field then (p.1 : Int) else selected) (-1)

/-- The loop of `OnField` that looks for the label of the current operator among
the labels of the valid operators. -/
def OnField_isValid (env : Env) (validOperators : List (String × SearchOperator))
    (m_operator : SearchOperator) : Bool :=
  validOperators.foldl
    (fun isValid op => if op.1 = (OperatorLabel env m_operator).1 then true else isValid) false

/-- Method `CGUIDialogSmartPlaylistRule::OnField`; `ui` is the outcome of the field
picker. -/
def OnField (env : Env) (d : Dialog) (ui : UserInput) : Option Dialog :=
  let fields := env.GetFields d.m_type
  let selected := OnField_selected fields d.m_rule.m_field
  let newSelected := ui.selectedItem
  if !ui.confirmed || newSelected < 0 || newSelected = selected then
    some d
  else
    match fields[newSelected.toNat]? with
    | none => none
    | some f =>
      let m_rule := { d.m_rule with m_field := f }
      let validOperators := GetValidOperators env m_rule
      let isValid := OnField_isValid env validOperators m_rule.m_operator
      let m_rule : Option Rule :=
        if !isValid then
          match validOperators[0]? with
          | none => none
          | some op => some { m_rule with m_operator := op.2 }
        else
          some m_rule
      match m_rule with
      | none => none
      | some m_rule => UpdateButtons env { d with m_rule := SetParameter env m_rule "" }

/-- Method `CGUIDialogSmartPlaylistRule::OnOperator`; `ui` is the outcome of the
operator picker. -/
def OnOperator (env : Env) (d : Dialog) (ui : UserInput) : Option Dialog :=
  let labels := GetValidOperators env d.m_rule
  let newSelected := ui.selectedItem
  if !ui.confirmed || newSelected < 0 then
    some d
  else
    match labels[newSelected.toNat]? with
    | none => none
    | some label =>
      UpdateButtons env { d with m_rule := { d.m_rule with m_operator := label.2 } }

/-! ## Browsing -/

/-- Where `OnBrowse` stands when its `if`/`else if` chain over the field is
done: with a list for the select dialog and the id of its heading, in the
`FieldPath` branch (served by the directory chooser), or at the early `return`
of the `FieldTag` branch. -/
inductive BrowseSource
  | list (items : List CFileItem) (iLabel : Nat)
  | directory
  | returned
deriving DecidableEq, Repr

/-- What `OnBrowse` hands to the select dialog before it opens it. -/
structure SelectSetup where
  items : List CFileItem
  iLabel : Nat
  multiSelection : Bool
  selected : List String
deriving DecidableEq, Repr

/-- The head of `OnBrowse`: `basePath` and `type` from the playlist type. -/
def OnBrowse_basePath (env : Env) (d : Dialog) : String × VideoDbContentType :=
  let basePath := if env.IsMusicType d.m_type then "musicdb://" else "videodb://"
  let type := MOVIES
  if d.m_type = "movies" then
    (basePath ++ "movies/", type)
  else if d.m_type = "tvshows" then
    (basePath ++ "tvshows/", TVSHOWS)
  else if d.m_type = "musicvideos" then
    (basePath ++ "musicvideos/", MUSICVIDEOS)
  else if d.m_type = "episodes" then
    let type :=
      if d.m_rule.m_field = FieldGenre ∨ d.m_rule.m_field = FieldYear ∨
          d.m_rule.m_field = FieldStudio then TVSHOWS else EPISODES
    (basePath ++ "tvshows/", type)
  else
    (basePath, type)

/-- The condition under which the playlist loop of `OnBrowse` removes the item
at `path`: the playlist does not load, or the field is `FieldPlaylist` and the
playlist is of an incompatible type or has a group. -/
def OnBrowse_removes (env : Env) (m_type : String) (m_field : Field) (path : String) : Bool :=
  let playlist := env.Load path
  !playlist.1 ||
    (decide (m_field = FieldPlaylist) &&
      (!env.CheckTypeCompatibility m_type playlist.2.type ||
        (!decide (playlist.2.group = "") || playlist.2.groupMixed)))

/-- The body of the playlist loop for an item that stays: it takes the name of
its playlist as label when that name is not empty. -/
def OnBrowse_relabel (env : Env) (item : CFileItem) : CFileItem :=
  let playlist := (env.Load item.path).2
  if playlist.name ≠ "" then { item with label := playlist.name } else item

/-- The playlist loop of `OnBrowse`,
`for (int i = 0; i < items.Size(); i++)`, started at index `i` with `fuel`
iterations allowed.  A removal runs `items.Remove(i); i -= 1; continue;` and the
loop header then adds one again.  The second component is a log of the paths
handed to `playlist.Load`, in call order (not a variable of the source).
`none`: the fuel ran out, or `items[i]` was out of range. -/
def OnBrowse_removeLoop (env : Env) (m_type : String) (m_field : Field) :
    Nat → Int → List CFileItem → List String → Option (List CFileItem × List String)
  | fuel, i, items, loaded =>
    if i < (items.length : Int) then
      match fuel with
      | 0 => none
      | fuel + 1 =>
        if i < 0 then none
        else
          match items[i.toNat]? with
          | none => none
          | some item =>
            let loaded := loaded ++ [item.path]
            if OnBrowse_removes env m_type m_field item.path then
              let items := items.eraseIdx i.toNat
              let i := i - 1
              OnBrowse_removeLoop env m_type m_field fuel (i + 1) items loaded
            else
              let items := items.set i.toNat (OnBrowse_relabel env item)
              OnBrowse_removeLoop env m_type m_field fuel (i + 1) items loaded
    else
      some (items, loaded)

/-- The `if`/`else if` chain of `OnBrowse` over `m_rule.m_field`.  `none`: the
`assert(false)` of the last `else`.  The playlist loop is given one unit of
fuel per candidate; `OnBrowse_removeLoop_eq` shows that this, and any larger
amount, lets it run to its end. -/
def OnBrowse_source (env : Env) (d : Dialog) : Option BrowseSource :=
  let items : List CFileItem := []
  let basePath := (OnBrowse_basePath env d).1
  let type := (OnBrowse_basePath env d).2
  let m_type := d.m_type
  let m_field := d.m_rule.m_field
  let iLabel := 0
  if m_field = FieldGenre then
    let items :=
      if m_type = "tvshows" ∨ m_type = "episodes" ∨ m_type = "movies" then
        env.query (.videoGetGenresNav (basePath ++ "genres/") type) items
      else if m_type = "songs" ∨ m_type = "albums" ∨ m_type = "artists" ∨ m_type = "mixed" then
        env.query (.musicGetGenresNav "musicdb://genres/") items
      else items
    let items :=
      if m_type = "musicvideos" ∨ m_type = "mixed" then
        items ++ env.query (.videoGetGenresNav "videodb://musicvideos/genres/" MUSICVIDEOS) []
      else items
    some (.list items 515)
  else if m_field = FieldSource then
    if m_type = "songs" ∨ m_type = "albums" ∨ m_type = "artists" ∨ m_type = "mixed" then
      some (.list (env.query (.musicGetSourcesNav "musicdb://sources/") items) 39030)
    else some (.list items iLabel)
  else if m_field = FieldRole then
    if m_type = "artists" ∨ m_type = "mixed" then
      some (.list (env.query (.musicGetRolesNav "musicdb://songs/") items) 38033)
    else some (.list items iLabel)
  else if m_field = FieldCountry then
    some (.list (env.query (.videoGetCountriesNav basePath type) items) 574)
  else if m_field = FieldArtist ∨ m_field = FieldAlbumArtist then
    let items :=
      if env.IsMusicType m_type then
        env.query (.musicGetArtistsNav "musicdb://artists/" (decide (m_field = FieldAlbumArtist))
          (-1)) items
      else items
    let items :=
      if m_type = "musicvideos" ∨ m_type = "mixed" then
        items ++ env.query (.videoGetMusicVideoArtistsByName "") []
      else items
    some (.list items 557)
  else if m_field = FieldAlbum then
    let items :=
      if env.IsMusicType m_type then env.query (.musicGetAlbumsNav "musicdb://albums/") items
      else items
    let items :=
      if m_type = "musicvideos" ∨ m_type = "mixed" then
        items ++ env.query (.videoGetMusicVideoAlbumsByName "") []
      else items
    some (.list items 558)
  else if m_field = FieldActor then
    some (.list (env.query (.videoGetActorsNav (basePath ++ "actors/") type) items) 20337)
  else if m_field = FieldYear then
    let items :=
      if env.IsMusicType m_type then env.query (.musicGetYearsNav "musicdb://years/") items
      else items
    let items :=
      if env.IsVideoType m_type then
        items ++ env.query (.videoGetYearsNav (basePath ++ "years/") type) []
      else items
    some (.list items 562)
  else if m_field = FieldOrigYear then
    some (.list (env.query (.musicGetYearsNav "musicdb://originalyears/") items) 38078)
  else if m_field = FieldDirector then
    some (.list (env.query (.videoGetDirectorsNav (basePath ++ "directors/") type) items) 20339)
  else if m_field = FieldStudio then
    some (.list (env.query (.videoGetStudiosNav (basePath ++ "studios/") type) items) 572)
  else if m_field = FieldWriter then
    some (.list (env.query (.videoGetWritersNav basePath type) items) 20417)
  else if m_field = FieldTvShowTitle ∨ (m_type = "tvshows" ∧ m_field = FieldTitle) then
    some (.list (env.query (.videoGetTvShowsNav (basePath ++ "titles/")) items) 20343)
  else if m_field = FieldTitle then
    let step1 : List CFileItem × Nat :=
      if m_type = "songs" ∨ m_type = "mixed" then
        (env.query (.musicGetSongsNav "musicdb://songs/" (-1) (-1) (-1)) items, 134)
      else (items, iLabel)
    let step2 : List CFileItem × Nat :=
      if m_type = "movies" then
        (env.query (.videoGetMoviesNav (basePath ++ "titles/")) step1.1, 20342)
      else step1
    let step3 : List CFileItem × Nat :=
      if m_type = "episodes" then
        ((env.query (.videoGetEpisodesNav (basePath ++ "titles/-1/-1/")) step2.1).map
          env.FormatLabel, 20360)
      else step2
    let step4 : List CFileItem × Nat :=
      if m_type = "musicvideos" ∨ m_type = "mixed" then
        (env.query (.videoGetMusicVideosNav (basePath ++ "titles/")) step3.1, 20389)
      else step3
    some (.list step4.1 step4.2)
  else if m_field = FieldPlaylist ∨ m_field = FieldVirtualFolder then
    let items :=
      if env.IsVideoType m_type then
        env.query (.GetDirectory "special://videoplaylists/" ".xsp") items
      else items
    let items :=
      if env.IsMusicType m_type then
        items ++ env.query (.GetDirectory "special://musicplaylists/" ".xsp") []
      else items
    match OnBrowse_removeLoop env m_type m_field items.length 0 items [] with
    | none => none
    | some r => some (.list r.1 559)
  else if m_field = FieldPath then
    some .directory
  else if m_field = FieldSet then
    some (.list (env.query (.videoGetSetsNav "videodb://movies/sets/" MOVIES) items) 20434)
  else if m_field = FieldTag then
    if m_type = "tvshows" ∨ m_type = "episodes" then
      some (.list (env.query (.videoGetTagsNav (basePath ++ "tags/") TVSHOWS) items) 20459)
    else if m_type = "musicvideos" then
      some (.list (env.query (.videoGetTagsNav (basePath ++ "tags/") MUSICVIDEOS) items) 20459)
    else if m_type ≠ "movies" then
      some .returned
    else
      some (.list (env.query (.videoGetTagsNav (basePath ++ "tags/") MOVIES) items) 20459)
  else
    none

/-- The select dialog as `OnBrowse` sets it up: the sorted items, the heading,
the selection mode and the preselected labels. -/
def OnBrowse_setup (env : Env) (d : Dialog) (items : List CFileItem) (iLabel : Nat) :
    SelectSetup :=
  { items := env.SortByLabel env.ignoreTheWhenSorting items
    iLabel := iLabel
    multiSelection :=
      decide (d.m_rule.m_field ≠ FieldPlaylist) && decide (d.m_rule.m_field ≠ FieldVirtualFolder)
    selected := d.m_rule.m_parameter }

/-- The loop `for (int i : pDialog->GetSelectedItems())` of `OnBrowse`, pushing
`items.Get(i)->GetLabel()`; `none` when an index has no item. -/
def OnBrowse_selectedLabels (items : List CFileItem) :
    List Int → List String → Option (List String)
  | [], m_parameter => some m_parameter
  | i :: rest, m_parameter =>
    if i < 0 then none
    else
      match items[i.toNat]? with
      | none => none
      | some item => OnBrowse_selectedLabels items rest (push_back m_parameter item.label)

/-- Modelled from the spec: `CGUIDialogFileBrowser::ShowAndGetDirectory` is
declared outside the source file.  `BrowseDirectory(sources, initialPath)`
gives a path or nothing; `path` is passed by reference and keeps its value
when nothing is chosen. -/
def ShowAndGetDirectory (ui : UserInput) (path : String) : String :=
  match ui.directory with
  | some chosen => chosen
  | none => path

/-- The `FieldPath` branch of `OnBrowse`. -/
def OnBrowse_path (env : Env) (d : Dialog) (ui : UserInput) : Option Dialog :=
  let path := env.GetParameter d.m_rule.m_parameter
  let path := ShowAndGetDirectory ui path
  let m_parameter := d.m_rule.m_parameter
  let m_parameter := if m_parameter ≠ [] then [] else m_parameter
  let m_parameter := if path ≠ "" then push_back m_parameter path else m_parameter
  UpdateButtons env { d with m_rule := { d.m_rule with m_parameter := m_parameter } }

/-- Method `CGUIDialogSmartPlaylistRule::OnBrowse`; `ui` is what the user does in the
select dialog or the directory chooser. -/
def OnBrowse (env : Env) (d : Dialog) (ui : UserInput) : Option Dialog :=
  match OnBrowse_source env d with
  | none => none
  | some .returned => some d
  | some .directory => OnBrowse_path env d ui
  | some (.list items iLabel) =>
    let pDialog := OnBrowse_setup env d items iLabel
    if ui.confirmed then
      let m_parameter : List String := []
      match OnBrowse_selectedLabels pDialog.items ui.selectedItems m_parameter with
      | none => none
      | some m_parameter =>
        UpdateButtons env { d with m_rule := { d.m_rule with m_parameter := m_parameter } }
    else
      some d

/-! ## Messages, the modal session and the entry point -/

/-- Control id `CONTROL_FIELD`. -/
def CONTROL_FIELD : Int := 15

/-- Control id `CONTROL_OPERATOR`. -/
def CONTROL_OPERATOR : Int := 16

/-- Control id `CONTROL_VALUE`. -/
def CONTROL_VALUE : Int := 17

/-- Control id `CONTROL_OK`. -/
def CONTROL_OK : Int := 18

/-- Control id `CONTROL_CANCEL`. -/
def CONTROL_CANCEL : Int := 19

/-- Control id `CONTROL_BROWSE`. -/
def CONTROL_BROWSE : Int := 20

/-- The messages `OnMessage` distinguishes: a click with its sender id, a
validity change with its first parameter, and any other message. -/
inductive CGUIMessage
  | GUI_MSG_CLICKED (senderId : Int)
  | GUI_MSG_VALIDITY_CHANGED (param1 : Int)
  | GUI_MSG_OTHER
deriving DecidableEq, Repr

/-- One event of a modal session: a message together with what the user does
in the control or sub-dialog it opens, or the back action. -/
inductive Event
  | message (message : CGUIMessage) (ui : UserInput)
  | back (actionID : Int)
deriving DecidableEq, Repr

/-- Method `CGUIDialogSmartPlaylistRule::OnMessage`.  `OnEditChanged` delivers the text
of the value control (`ui.text`); the base-class `OnMessage` changes none of
the members kept here. -/
def OnMessage (env : Env) (d : Dialog) (message : CGUIMessage) (ui : UserInput) :
    Option Dialog :=
  match message with
  | .GUI_MSG_CLICKED iControl =>
    if iControl = CONTROL_OK then
      some (OnOK d)
    else if iControl = CONTROL_CANCEL then
      some (OnCancel d)
    else if iControl = CONTROL_VALUE then
      let parameter := ui.text
      some { d with m_rule := SetParameter env d.m_rule parameter }
    else if iControl = CONTROL_OPERATOR then
      OnOperator env d ui
    else if iControl = CONTROL_FIELD then
      OnField env d ui
    else if iControl = CONTROL_BROWSE then
      OnBrowse env d ui
    else
      some d
  | .GUI_MSG_VALIDITY_CHANGED param1 =>
    some { d with controls := { d.controls with okEnabled := decide (param1 ≠ 0) } }
  | .GUI_MSG_OTHER => some d

/-- Method `CGUIDialogSmartPlaylistRule::OnInitWindow`. -/
def OnInitWindow (env : Env) (d : Dialog) : Option Dialog :=
  UpdateButtons env d

/-- Method `CGUIDialogSmartPlaylistRule::OnDeinitWindow`: the two `GUI_MSG_LABEL_RESET`
messages empty the field and operator controls. -/
def OnDeinitWindow (d : Dialog) : Dialog :=
  { d with controls := { d.controls with fieldLabel := "", operatorLabel := "" } }

/-- One event handed to the open dialog. -/
def dispatch (env : Env) (d : Dialog) : Event → Option Dialog
  | .message message ui => OnMessage env d message ui
  | .back actionID => some (OnBack d actionID)

/-- Modelled from the spec: the modal loop of `CGUIDialog::Open` is declared
outside the source file.  The dialog blocks the caller until it is closed:
events are handled in order while the dialog is open, events after its close
are not delivered, and a session whose events never close it has no result. -/
def Open_loop (env : Env) : List Event → Dialog → Option Dialog
  | [], d => if d.m_active then none else some d
  | e :: rest, d =>
    if d.m_active then
      match dispatch env d e with
      | none => none
      | some d => Open_loop env rest d
    else
      some d

/-- Modelled from the spec: `CGUIDialog::Open` is declared outside the source
file.  It opens the dialog modally: window initialisation, the modal loop, and
window deinitialisation once the dialog is closed. -/
def Open (env : Env) (d : Dialog) (session : List Event) : Option Dialog :=
  match OnInitWindow env { d with m_active := true } with
  | none => none
  | some d =>
    match Open_loop env session d with
    | none => none
    | some d => some (OnDeinitWindow d)

/-- What `EditRule` leaves behind: its return value, the caller's rule object,
and the dialog instance of the window manager. -/
structure EditResult where
  confirmed : Bool
  rule : Rule
  editor : Option Dialog
deriving DecidableEq, Repr

/-- Method `CGUIDialogSmartPlaylistRule::EditRule`.  `editor` is the instance the
window manager returns (`none` for a null pointer), `session` the events of
the modal session. -/
def EditRule (env : Env) (editor : Option Dialog) (rule : Rule) (type : String)
    (session : List Event) : Option EditResult :=
  match editor with
  | none => some { confirmed := false, rule := rule, editor := none }
  | some editor =>
    let editor := { editor with m_rule := rule }
    let editor := { editor with m_type := type }
    match Open env editor session with
    | none => none
    | some editor =>
      let rule := editor.m_rule
      some { confirmed := !editor.m_cancelled, rule := rule, editor := some editor }

/-! ## A concrete environment -/

/-- A small catalogue used to evaluate the handlers on concrete inputs. -/
def sampleEnv : Env where
  GetFields := fun type =>
    if type = "songs" then [FieldGenre, FieldYear, FieldPath, FieldPlaylist, FieldVirtualFolder]
    else [FieldTitle, FieldGenre, FieldOther 1, FieldOther 2, FieldPlaylist, FieldVirtualFolder]
  GetFieldType := fun f =>
    match f with
    | FieldYear => NUMERIC_FIELD
    | FieldPlaylist => PLAYLIST_FIELD
    | FieldVirtualFolder => PLAYLIST_FIELD
    | FieldOther 1 => DATE_FIELD
    | FieldOther 2 => BOOLEAN_FIELD
    | _ => TEXT_FIELD
  GetLocalizedField := fun f =>
    match f with
    | FieldGenre => "Genre"
    | FieldYear => "Year"
    | FieldTitle => "Title"
    | FieldPath => "Path"
    | FieldPlaylist => "Playlist"
    | FieldVirtualFolder => "Virtual folder"
    | _ => "Field"
  GetLocalizedOperator := fun op =>
    match op with
    | OPERATOR_EQUALS => "is"
    | OPERATOR_DOES_NOT_EQUAL => "is not"
    | OPERATOR_CONTAINS => "contains"
    | OPERATOR_DOES_NOT_CONTAIN => "does not contain"
    | OPERATOR_STARTS_WITH => "starts with"
    | OPERATOR_ENDS_WITH => "ends with"
    | OPERATOR_GREATER_THAN => "greater than"
    | OPERATOR_LESS_THAN => "less than"
    | OPERATOR_AFTER => "after"
    | OPERATOR_BEFORE => "before"
    | OPERATOR_IN_THE_LAST => "in the last"
    | OPERATOR_NOT_IN_THE_LAST => "not in the last"
    | OPERATOR_TRUE => "true"
    | OPERATOR_FALSE => "false"
    | OPERATOR_OTHER code => String.mk (List.replicate code '#')
  IsFieldBrowseable := fun f =>
    match f with
    | FieldGenre | FieldYear | FieldPath | FieldPlaylist | FieldVirtualFolder | FieldTitle => true
    | _ => false
  IsMusicType := fun type => decide (type = "songs" ∨ type = "albums" ∨ type = "mixed")
  IsVideoType := fun type => decide (type = "movies" ∨ type = "mixed")
  CheckTypeCompatibility := fun a b => decide (a = b)
  Load := fun path =>
    if path = "a.xsp" then (true, { type := "songs", name := "Alpha", group := "", groupMixed := false })
    else if path = "b.xsp" then (false, { type := "", name := "", group := "", groupMixed := false })
    else if path = "c.xsp" then (true, { type := "movies", name := "Gamma", group := "", groupMixed := false })
    else if path = "d.xsp" then (true, { type := "songs", name := "", group := "", groupMixed := false })
    else if path = "e.xsp" then (true, { type := "songs", name := "Eps", group := "albums", groupMixed := false })
    else (false, { type := "", name := "", group := "", groupMixed := false })
  query := fun q items =>
    match q with
    | .GetDirectory "special://musicplaylists/" _ =>
      items ++ [⟨"b.xsp", "b"⟩, ⟨"e.xsp", "e"⟩, ⟨"a.xsp", "a"⟩, ⟨"c.xsp", "c"⟩, ⟨"d.xsp", "d"⟩]
    | .GetDirectory "special://videoplaylists/" _ => items ++ [⟨"c.xsp", "c"⟩]
    | .musicGetGenresNav _ => items ++ [⟨"musicdb://genres/1/", "Rock"⟩, ⟨"musicdb://genres/2/", "Jazz"⟩,
        ⟨"musicdb://genres/3/", "Folk"⟩]
    | _ => items
  FormatLabel := fun item => item
  SortByLabel := fun _ items => items
  ignoreTheWhenSorting := false
  GetParameter := fun values => " / ".intercalate values
  splitValue := fun value => [value]

/-- Controls showing nothing. -/
def blankControls : Controls :=
  { fieldLabel := "", operatorLabel := "", valueLabel2 := "", valueEnabled := true,
    browseEnabled := true, okEnabled := true, valueType := INPUT_TYPE_TEXT }

/-- A dialog object as the constructor leaves it. -/
def freshDialog : Dialog :=
  ctor { m_rule := { m_field := FieldNone, m_operator := OPERATOR_CONTAINS, m_parameter := [] },
         m_type := "", m_cancelled := true, m_active := false, controls := blankControls }

/-- The fresh dialog holding `rule` for the playlist type `type`. -/
def sampleDialog (type : String) (rule : Rule) : Dialog :=
  { freshDialog with m_rule := rule, m_type := type }

/-- Five candidate playlist files: one that does not load, one with a group,
one of the current type, one of another type, one without a name. -/
def sampleCandidates : List CFileItem :=
  [⟨"b.xsp", "b"⟩, ⟨"e.xsp", "e"⟩, ⟨"a.xsp", "a"⟩, ⟨"c.xsp", "c"⟩, ⟨"d.xsp", "d"⟩]

/-- The rule "genre contains x". -/
def sampleRule : Rule :=
  ⟨FieldGenre, OPERATOR_CONTAINS, ["x"]⟩

/-- A user input that confirms nothing. -/
def noInput : UserInput :=
  { text := "", confirmed := false, selectedItem := -1, selectedItems := [], directory := none }

/-- Reads an operator back from its `sampleEnv` label. -/
def sampleOperatorOfLabel (s : String) : SearchOperator :=
  if s.data.head? = some '#' ∨ s = "" then OPERATOR_OTHER s.length
  else if s = "is" then OPERATOR_EQUALS
  else if s = "is not" then OPERATOR_DOES_NOT_EQUAL
  else if s = "contains" then OPERATOR_CONTAINS
  else if s = "does not contain" then OPERATOR_DOES_NOT_CONTAIN
  else if s = "starts with" then OPERATOR_STARTS_WITH
  else if s = "ends with" then OPERATOR_ENDS_WITH
  else if s = "greater than" then OPERATOR_GREATER_THAN
  else if s = "less than" then OPERATOR_LESS_THAN
  else if s = "after" then OPERATOR_AFTER
  else if s = "before" then OPERATOR_BEFORE
  else if s = "in the last" then OPERATOR_IN_THE_LAST
  else if s = "not in the last" then OPERATOR_NOT_IN_THE_LAST
  else if s = "true" then OPERATOR_TRUE
  else OPERATOR_FALSE

/-! ## Predicates used in the statements -/

/-- The operators of `GetValidOperators`, without their labels. -/
def validOperators (env : Env) (rule : Rule) : List SearchOperator :=
  (GetValidOperators env rule).map Prod.snd

/-- The rule's operator is one of the operators valid for the rule's field. -/
def operatorValid (env : Env) (rule : Rule) : Prop :=
  rule.m_operator ∈ validOperators env rule

instance (env : Env) (rule : Rule) : Decidable (operatorValid env rule) :=
  inferInstanceAs (Decidable (rule.m_operator ∈ validOperators env rule))

/-- No operator that `GetValidOperators` offers shares its localised label
with another operator, so that a label found among the valid operators
identifies the operator. -/
def labelsIdentifyOperators (env : Env) : Prop :=
  ∀ (rule : Rule) (a b : SearchOperator), a ∈ validOperators env rule →
    env.GetLocalizedOperator a = env.GetLocalizedOperator b → a = b

/-- The event closes the dialog: a click on OK or Cancel, or the back action. -/
def closes : Event → Bool
  | .message (.GUI_MSG_CLICKED iControl) _ =>
    decide (iControl = CONTROL_OK) || decide (iControl = CONTROL_CANCEL)
  | .message _ _ => false
  | .back _ => true

/-- The event runs `OnOK`. -/
def invokesOnOK : Event → Bool
  | .message (.GUI_MSG_CLICKED iControl) _ => decide (iControl = CONTROL_OK)
  | _ => false

/-- The interactive edits of a session applied in order to the open dialog. -/
def applyEdits (env : Env) : List Event → Dialog → Option Dialog
  | [], d => some d
  | e :: rest, d =>
    match dispatch env d e with
    | none => none
    | some d => applyEdits env rest d

/-- The candidate playlist files `OnBrowse` gathers for the playlist and
virtual-folder fields before its removal loop. -/
def playlistCandidates (env : Env) (m_type : String) : List CFileItem :=
  (if env.IsVideoType m_type then
      env.query (.GetDirectory "special://videoplaylists/" ".xsp") []
    else []) ++
  (if env.IsMusicType m_type then
      env.query (.GetDirectory "special://musicplaylists/" ".xsp") []
    else [])

/-- The playlist filter as the specification words it: a candidate stays when
its playlist loads and, for the playlist-reference field, is compatible in
type with the current playlist type and has an empty, non-mixed group. -/
def specKeeps (env : Env) (m_type : String) (m_field : Field) (item : CFileItem) : Bool :=
  (env.Load item.path).1 &&
    (decide (m_field ≠ FieldPlaylist) ||
      (env.CheckTypeCompatibility m_type (env.Load item.path).2.type &&
        decide ((env.Load item.path).2.group = "") &&
        !(env.Load item.path).2.groupMixed))

/-- The candidate list of the specification: the candidates that stay, in
their original order, each labelled by its declared name if it has one. -/
def specPlaylistCandidates (env : Env) (m_type : String) (m_field : Field)
    (items : List CFileItem) : List CFileItem :=
  (items.filter (specKeeps env m_type m_field)).map (OnBrowse_relabel env)

/-! ## Auxiliary facts -/

theorem sampleEnv_label_leftInverse (op : SearchOperator) :
    sampleOperatorOfLabel (sampleEnv.GetLocalizedOperator op) = op := by
  cases op with
  | OPERATOR_OTHER code =>
    cases code with
    | zero => rfl
    | succ n =>
      simp [sampleEnv, sampleOperatorOfLabel, List.replicate_succ, String.length]
  | _ => rfl

theorem sampleEnv_label_injective : Function.Injective sampleEnv.GetLocalizedOperator :=
  Function.LeftInverse.injective sampleEnv_label_leftInverse

theorem sampleEnv_labelsIdentify : labelsIdentifyOperators sampleEnv :=
  fun _ _ _ _ h => sampleEnv_label_injective h

theorem mem_validOperators_iff (env : Env) (rule : Rule) (op : SearchOperator) :
    op ∈ validOperators env rule ↔ op ∈ specValidOperators (env.GetFieldType rule.m_field) := by
  unfold validOperators GetValidOperators
  cases env.GetFieldType rule.m_field <;>
    simp [push_back, OperatorLabel, specValidOperators]

theorem GetValidOperators_table_aux (env : Env) (rule : Rule) :
    GetValidOperators env rule =
      (specValidOperators (env.GetFieldType rule.m_field)).map
        (fun op => (env.GetLocalizedOperator op, op)) := by
  unfold GetValidOperators
  cases env.GetFieldType rule.m_field <;> rfl

theorem UpdateButtons_of_field_set (env : Env) (d : Dialog)
    (h : d.m_rule.m_field ≠ FieldNone) :
    UpdateButtons env d = some { d with
      controls := { d.controls with
        fieldLabel := env.GetLocalizedField d.m_rule.m_field
        valueEnabled := decide (env.GetFieldType d.m_rule.m_field ≠ BOOLEAN_FIELD)
        browseEnabled := env.IsFieldBrowseable d.m_rule.m_field
        operatorLabel := env.GetLocalizedOperator d.m_rule.m_operator
        valueLabel2 := env.GetParameter d.m_rule.m_parameter
        valueType := UpdateButtons_inputType (env.GetFieldType d.m_rule.m_field)
          d.m_rule.m_operator } } := by
  simp [UpdateButtons, UpdateButtons_defaultField, h, OperatorLabel]

theorem UpdateButtons_frame (env : Env) (d d' : Dialog) (h : UpdateButtons env d = some d') :
    d'.m_rule.m_operator = d.m_rule.m_operator ∧
    d'.m_rule.m_parameter = d.m_rule.m_parameter ∧
    d'.m_type = d.m_type ∧ d'.m_cancelled = d.m_cancelled ∧ d'.m_active = d.m_active ∧
    (d.m_rule.m_field ≠ FieldNone → d'.m_rule = d.m_rule) ∧
    (d.m_rule.m_field = FieldNone → (env.GetFields d.m_type)[0]? = some d'.m_rule.m_field) ∧
    d'.controls.valueType =
      UpdateButtons_inputType (env.GetFieldType d'.m_rule.m_field) d'.m_rule.m_operator := by
  unfold UpdateButtons UpdateButtons_defaultField at h
  by_cases hf : d.m_rule.m_field = FieldNone
  · simp only [hf, if_true] at h
    cases hg : (env.GetFields d.m_type)[0]? with
    | none => simp [hg] at h
    | some f =>
      simp only [hg, Option.some.injEq] at h
      subst h
      simp [hf]
  · simp only [hf, if_false, Option.some.injEq] at h
    subst h
    simp [hf]

theorem UpdateButtons_isSome (env : Env) (d : Dialog)
    (h : d.m_rule.m_field ≠ FieldNone ∨ env.GetFields d.m_type ≠ []) :
    ∃ d', UpdateButtons env d = some d' := by
  by_cases hf : d.m_rule.m_field = FieldNone
  · rcases h with h | h
    · exact absurd hf h
    · cases hg : env.GetFields d.m_type with
      | nil => exact absurd hg h
      | cons f rest =>
        simp [UpdateButtons, UpdateButtons_defaultField, hf, hg]
  · exact ⟨_, UpdateButtons_of_field_set env d hf⟩

theorem OnField_isValid_foldl (lbl : String) (ops : List (String × SearchOperator))
    (acc : Bool) :
    ops.foldl (fun isValid op => if op.1 = lbl then true else isValid) acc = true ↔
      acc = true ∨ ∃ op ∈ ops, op.1 = lbl := by
  induction ops generalizing acc with
  | nil => simp
  | cons op rest ih =>
    rw [List.foldl_cons, ih]
    by_cases h : op.1 = lbl
    · simp [h]
    · simp [h]

theorem OnField_isValid_iff (env : Env) (ops : List (String × SearchOperator))
    (cur : SearchOperator) :
    OnField_isValid env ops cur = true ↔
      ∃ op ∈ ops, op.1 = env.GetLocalizedOperator cur := by
  unfold OnField_isValid OperatorLabel
  rw [OnField_isValid_foldl]
  simp

theorem OnField_isValid_of_labels (env : Env)
    (hlabel : labelsIdentifyOperators env) (rule : Rule) (cur : SearchOperator) :
    OnField_isValid env (GetValidOperators env rule) cur = true ↔
      cur ∈ validOperators env rule := by
  rw [OnField_isValid_iff]
  constructor
  · rintro ⟨op, hop, h⟩
    have hmem : op.2 ∈ validOperators env rule := List.mem_map_of_mem Prod.snd hop
    have hlab : op.1 = env.GetLocalizedOperator op.2 := by
      rw [GetValidOperators_table_aux] at hop
      simp only [List.mem_map] at hop
      obtain ⟨a, -, rfl⟩ := hop
      rfl
    have : op.2 = cur := hlabel rule op.2 cur hmem (hlab ▸ h)
    exact this ▸ hmem
  · intro hcur
    unfold validOperators at hcur
    rw [GetValidOperators_table_aux] at hcur ⊢
    simp only [List.mem_map, List.map_map] at hcur ⊢
    obtain ⟨a, ha, h⟩ := hcur
    simp only [Function.comp] at h
    subst h
    exact ⟨_, ⟨a, ha, rfl⟩, rfl⟩

theorem GetValidOperators_head (env : Env) (rule : Rule) :
    ∃ op rest, GetValidOperators env rule = op :: rest := by
  rw [GetValidOperators_table_aux]
  cases env.GetFieldType rule.m_field <;> simp [specValidOperators]

theorem validOperators_congr (env : Env) (r r' : Rule) (h : r.m_field = r'.m_field) :
    validOperators env r = validOperators env r' := by
  unfold validOperators
  rw [GetValidOperators_table_aux, GetValidOperators_table_aux, h]

theorem OnField_selected_foldl (cur : Field) (fields : List Field) (k : Nat) (acc : Int)
    (hacc : acc = -1 ∨ ∃ j : Nat, acc = (j : Int) ∧ j < k) :
    let r := (fields.enumFrom k).foldl
      (fun selected p => if p.2 = cur then (p.1 : Int) else selected) acc
    r = acc ∨ ∃ j : Nat, r = (j : Int) ∧ k ≤ j ∧ fields[j - k]? = some cur := by
  induction fields generalizing k acc with
  | nil => simp
  | cons f rest ih =>
    simp only [List.enumFrom_cons, List.foldl_cons]
    by_cases hf : f = cur
    · simp only [hf, if_true]
      rcases ih (k + 1) (k : Int) (Or.inr ⟨k, rfl, Nat.lt_succ_self k⟩) with h | ⟨j, hj, hk, hget⟩
      · right
        exact ⟨k, h, le_refl k, by simp⟩
      · right
        refine ⟨j, hj, by omega, ?_⟩
        have : j - k = (j - (k + 1)) + 1 := by omega
        rw [this, List.getElem?_cons_succ]
        exact hget
    · simp only [hf, if_false]
      have hacc' : acc = -1 ∨ ∃ j : Nat, acc = (j : Int) ∧ j < k + 1 := by
        rcases hacc with h | ⟨j, h, hj⟩
        · exact Or.inl h
        · exact Or.inr ⟨j, h, by omega⟩
      rcases ih (k + 1) acc hacc' with h | ⟨j, hj, hk, hget⟩
      · exact Or.inl h
      · right
        refine ⟨j, hj, by omega, ?_⟩
        have : j - k = (j - (k + 1)) + 1 := by omega
        rw [this, List.getElem?_cons_succ]
        exact hget

theorem OnField_selected_spec (fields : List Field) (cur : Field) :
    OnField_selected fields cur = -1 ∨
      ∃ j : Nat, OnField_selected fields cur = (j : Int) ∧ fields[j]? = some cur := by
  have h := OnField_selected_foldl cur fields 0 (-1) (Or.inl rfl)
  simp only [Nat.sub_zero] at h
  rcases h with h | ⟨j, hj, -, hget⟩
  · exact Or.inl h
  · exact Or.inr ⟨j, hj, hget⟩

theorem OnField_selected_ne_of_field_ne (fields : List Field) (cur f : Field) (i : Int)
    (hi : 0 ≤ i) (hsel : fields[i.toNat]? = some f) (hne : f ≠ cur) :
    i ≠ OnField_selected fields cur := by
  intro h
  rcases OnField_selected_spec fields cur with h1 | ⟨j, hj, hget⟩
  · omega
  · rw [← h] at hj
    subst hj
    simp only [Int.toNat_ofNat] at hsel
    rw [hget] at hsel
    exact hne (Option.some.inj hsel).symm

theorem specKeeps_eq_not_removes (env : Env) (m_type : String) (m_field : Field)
    (item : CFileItem) :
    specKeeps env m_type m_field item = !OnBrowse_removes env m_type m_field item.path := by
  unfold specKeeps OnBrowse_removes
  simp only [decide_not]
  cases (env.Load item.path).1 <;> cases decide (m_field = FieldPlaylist) <;>
    cases env.CheckTypeCompatibility m_type (env.Load item.path).2.type <;>
    cases decide ((env.Load item.path).2.group = "") <;>
    cases (env.Load item.path).2.groupMixed <;> rfl

theorem OnBrowse_relabel_path (env : Env) (item : CFileItem) :
    (OnBrowse_relabel env item).path = item.path := by
  simp only [OnBrowse_relabel]
  split <;> rfl

theorem OnBrowse_removeLoop_append (env : Env) (m_type : String) (m_field : Field) :
    ∀ (post : List CFileItem) (fuel : Nat) (pre : List CFileItem) (loaded : List String),
      post.length ≤ fuel →
      OnBrowse_removeLoop env m_type m_field fuel (pre.length : Int) (pre ++ post) loaded =
        some (pre ++ (post.filter (specKeeps env m_type m_field)).map (OnBrowse_relabel env),
          loaded ++ post.map (fun item => item.path)) := by
  intro post
  induction post with
  | nil =>
    intro fuel pre loaded _
    unfold OnBrowse_removeLoop
    simp
  | cons item post ih =>
    intro fuel pre loaded hfuel
    cases fuel with
    | zero => simp at hfuel
    | succ fuel =>
      have hfuel' : post.length ≤ fuel := by simpa using hfuel
      unfold OnBrowse_removeLoop
      have hlt : (pre.length : Int) < ((pre ++ item :: post).length : Int) := by
        simp only [List.length_append, List.length_cons]
        omega
      have hnn : ¬ (pre.length : Int) < 0 := by omega
      have hget : (pre ++ item :: post)[(pre.length : Int).toNat]? = some item := by
        rw [Int.toNat_ofNat, List.getElem?_append_right (le_refl _)]
        simp
      simp only [hlt, if_true, hnn, if_false, hget]
      by_cases hrm : OnBrowse_removes env m_type m_field item.path = true
      · have hkeep : specKeeps env m_type m_field item = false := by
          rw [specKeeps_eq_not_removes, hrm]; rfl
        have herase : (pre ++ item :: post).eraseIdx (pre.length : Int).toNat = pre ++ post := by
          simp [List.eraseIdx_append_of_length_le]
        have hidx : (pre.length : Int) - 1 + 1 = (pre.length : Int) := by omega
        simp only [hrm, if_true, herase, hidx]
        rw [ih fuel pre (loaded ++ [item.path]) hfuel']
        simp [List.filter_cons, hkeep]
      · have hrm' : OnBrowse_removes env m_type m_field item.path = false := by
          simpa using hrm
        have hkeep : specKeeps env m_type m_field item = true := by
          rw [specKeeps_eq_not_removes, hrm']; rfl
        have hset : (pre ++ item :: post).set (pre.length : Int).toNat (OnBrowse_relabel env item) =
            (pre ++ [OnBrowse_relabel env item]) ++ post := by
          simp [List.set_append]
        have hidx : (pre.length : Int) + 1 = ((pre ++ [OnBrowse_relabel env item]).length : Int) := by
          simp
        simp only [hrm', Bool.false_eq_true, if_false, hset]
        rw [hidx, ih fuel (pre ++ [OnBrowse_relabel env item]) (loaded ++ [item.path]) hfuel']
        simp [List.filter_cons, hkeep]

theorem OnBrowse_removeLoop_eq (env : Env) (m_type : String) (m_field : Field)
    (items : List CFileItem) (fuel : Nat) (hfuel : items.length ≤ fuel) :
    OnBrowse_removeLoop env m_type m_field fuel 0 items [] =
      some (specPlaylistCandidates env m_type m_field items,
        items.map (fun item => item.path)) := by
  have h := OnBrowse_removeLoop_append env m_type m_field items fuel [] [] hfuel
  simpa [specPlaylistCandidates] using h

theorem OnBrowse_selectedLabels_spec (items : List CFileItem) :
    ∀ (sel : List Int) (acc : List String),
      (∀ i ∈ sel, 0 ≤ i ∧ i.toNat < items.length) →
      ∃ labels, OnBrowse_selectedLabels items sel acc = some (acc ++ labels) ∧
        labels.map some = sel.map (fun i => (items[i.toNat]?).map (fun item => item.label)) := by
  intro sel
  induction sel with
  | nil =>
    intro acc _
    exact ⟨[], by simp [OnBrowse_selectedLabels], rfl⟩
  | cons i rest ih =>
    intro acc hrange
    obtain ⟨hi0, hilt⟩ := hrange i (List.mem_cons_self i rest)
    have hnn : ¬ i < 0 := by omega
    have hget : items[i.toNat]? = some (items[i.toNat]) := List.getElem?_eq_getElem hilt
    obtain ⟨labels, hrun, hmap⟩ := ih (push_back acc items[i.toNat].label)
      (fun j hj => hrange j (List.mem_cons_of_mem i hj))
    refine ⟨items[i.toNat].label :: labels, ?_, ?_⟩
    · simp only [OnBrowse_selectedLabels, hnn, if_false, hget]
      rw [hrun]
      simp [push_back]
    · simp [hmap, hget]

theorem OnBrowse_source_field_set (env : Env) (d : Dialog) (src : BrowseSource)
    (h : OnBrowse_source env d = some src) : d.m_rule.m_field ≠ FieldNone := by
  intro hf
  simp [OnBrowse_source, hf] at h

theorem OnBrowse_list_cancelled (env : Env) (d : Dialog) (ui : UserInput)
    (items : List CFileItem) (iLabel : Nat)
    (hsrc : OnBrowse_source env d = some (.list items iLabel))
    (hcancel : ui.confirmed = false) :
    OnBrowse env d ui = some d := by
  simp [OnBrowse, hsrc, hcancel]

theorem OnBrowse_source_of_path (env : Env) (d : Dialog)
    (hf : d.m_rule.m_field = FieldPath) : OnBrowse_source env d = some .directory := by
  simp [OnBrowse_source, hf]

theorem OnField_some (env : Env) (d d' : Dialog) (ui : UserInput)
    (h : OnField env d ui = some d') :
    d' = d ∨ ∃ f op, f ∈ env.GetFields d.m_type ∧
      ((OnField_isValid env (GetValidOperators env { d.m_rule with m_field := f })
            d.m_rule.m_operator = true ∧ op = d.m_rule.m_operator) ∨
        op ∈ validOperators env { d.m_rule with m_field := f }) ∧
      UpdateButtons env { d with m_rule := ⟨f, op, []⟩ } = some d' := by
  unfold OnField at h
  simp only at h
  split at h
  · exact Or.inl (Option.some.inj h).symm
  · right
    cases hsel : (env.GetFields d.m_type)[ui.selectedItem.toNat]? with
    | none => simp [hsel] at h
    | some f =>
      simp only [hsel] at h
      have hfmem : f ∈ env.GetFields d.m_type := List.getElem?_mem hsel
      by_cases hv : OnField_isValid env (GetValidOperators env { d.m_rule with m_field := f })
          d.m_rule.m_operator = true
      · simp only [hv, Bool.not_true, Bool.false_eq_true, if_false] at h
        exact ⟨f, d.m_rule.m_operator, hfmem, Or.inl ⟨hv, rfl⟩, by simpa [SetParameter] using h⟩
      · have hv' : OnField_isValid env (GetValidOperators env { d.m_rule with m_field := f })
            d.m_rule.m_operator = false := by simpa using hv
        obtain ⟨op, rest, hops⟩ := GetValidOperators_head env { d.m_rule with m_field := f }
        have hv'' := hv'
        rw [hops] at hv''
        simp only [hops, hv'', Bool.not_false, if_true, List.getElem?_cons_zero] at h
        refine ⟨f, op.2, hfmem, Or.inr ?_, by simpa [SetParameter] using h⟩
        simp [validOperators, hops]

theorem OnOperator_some (env : Env) (d d' : Dialog) (ui : UserInput)
    (h : OnOperator env d ui = some d') :
    d' = d ∨ ∃ op ∈ validOperators env d.m_rule,
      UpdateButtons env { d with m_rule := { d.m_rule with m_operator := op } } = some d' := by
  unfold OnOperator at h
  simp only at h
  split at h
  · exact Or.inl (Option.some.inj h).symm
  · right
    cases hsel : (GetValidOperators env d.m_rule)[ui.selectedItem.toNat]? with
    | none => simp [hsel] at h
    | some label =>
      simp only [hsel] at h
      refine ⟨label.2, ?_, h⟩
      exact List.mem_map_of_mem Prod.snd (List.getElem?_mem hsel)

theorem OnBrowse_some (env : Env) (d d' : Dialog) (ui : UserInput)
    (h : OnBrowse env d ui = some d') :
    d' = d ∨ ∃ m_parameter,
      UpdateButtons env { d with m_rule := { d.m_rule with m_parameter := m_parameter } } =
        some d' := by
  unfold OnBrowse at h
  split at h
  · exact absurd h (by simp)
  · exact Or.inl (Option.some.inj h).symm
  · exact Or.inr ⟨_, h⟩
  · simp only at h
    split at h
    · split at h
      · exact absurd h (by simp)
      · exact Or.inr ⟨_, h⟩
    · exact Or.inl (Option.some.inj h).symm

theorem operatorValid_iff (env : Env) (rule : Rule) :
    operatorValid env rule ↔
      rule.m_operator ∈ specValidOperators (env.GetFieldType rule.m_field) :=
  mem_validOperators_iff env rule rule.m_operator

theorem OnField_frame (env : Env) (d d' : Dialog) (ui : UserInput)
    (h : OnField env d ui = some d') :
    d'.m_type = d.m_type ∧ d'.m_cancelled = d.m_cancelled ∧ d'.m_active = d.m_active := by
  rcases OnField_some env d d' ui h with rfl | ⟨f, op, -, -, hu⟩
  · exact ⟨rfl, rfl, rfl⟩
  · obtain ⟨-, -, h3, h4, h5, -⟩ := UpdateButtons_frame env _ d' hu
    exact ⟨h3, h4, h5⟩

theorem OnOperator_frame (env : Env) (d d' : Dialog) (ui : UserInput)
    (h : OnOperator env d ui = some d') :
    d'.m_type = d.m_type ∧ d'.m_cancelled = d.m_cancelled ∧ d'.m_active = d.m_active := by
  rcases OnOperator_some env d d' ui h with rfl | ⟨op, -, hu⟩
  · exact ⟨rfl, rfl, rfl⟩
  · obtain ⟨-, -, h3, h4, h5, -⟩ := UpdateButtons_frame env _ d' hu
    exact ⟨h3, h4, h5⟩

theorem OnBrowse_frame (env : Env) (d d' : Dialog) (ui : UserInput)
    (h : OnBrowse env d ui = some d') :
    d'.m_type = d.m_type ∧ d'.m_cancelled = d.m_cancelled ∧ d'.m_active = d.m_active := by
  rcases OnBrowse_some env d d' ui h with rfl | ⟨m_parameter, hu⟩
  · exact ⟨rfl, rfl, rfl⟩
  · obtain ⟨-, -, h3, h4, h5, -⟩ := UpdateButtons_frame env _ d' hu
    exact ⟨h3, h4, h5⟩

theorem dispatch_frame (env : Env) (d d' : Dialog) (e : Event) (hc : closes e = false)
    (h : dispatch env d e = some d') :
    d'.m_cancelled = d.m_cancelled ∧ d'.m_active = d.m_active := by
  cases e with
  | back actionID => simp [closes] at hc
  | message message ui =>
    cases message with
    | GUI_MSG_CLICKED iControl =>
      simp only [closes, Bool.or_eq_false_iff, decide_eq_false_iff_not] at hc
      simp only [dispatch, OnMessage, hc.1, hc.2, if_false] at h
      split at h
      · cases h; exact ⟨rfl, rfl⟩
      · split at h
        · exact (OnOperator_frame env d d' ui h).2
        · split at h
          · exact (OnField_frame env d d' ui h).2
          · split at h
            · exact (OnBrowse_frame env d d' ui h).2
            · cases h; exact ⟨rfl, rfl⟩
    | GUI_MSG_VALIDITY_CHANGED param1 =>
      simp only [dispatch, OnMessage, Option.some.injEq] at h
      subst h
      exact ⟨rfl, rfl⟩
    | GUI_MSG_OTHER =>
      simp only [dispatch, OnMessage, Option.some.injEq] at h
      subst h
      exact ⟨rfl, rfl⟩

theorem dispatch_closing (env : Env) (d : Dialog) (e : Event) (hc : closes e = true) :
    ∃ d', dispatch env d e = some d' ∧ d'.m_active = false ∧
      d'.m_cancelled = !invokesOnOK e ∧ d'.m_rule = d.m_rule := by
  cases e with
  | back actionID =>
    exact ⟨_, rfl, rfl, rfl, rfl⟩
  | message message ui =>
    cases message with
    | GUI_MSG_CLICKED iControl =>
      by_cases hok : iControl = CONTROL_OK
      · refine ⟨OnOK d, by simp [dispatch, OnMessage, hok], rfl, ?_, rfl⟩
        simp [invokesOnOK, hok, OnOK, Close]
      · have hcancel : iControl = CONTROL_CANCEL := by
          simpa [closes, hok] using hc
        have hne : ¬ CONTROL_CANCEL = CONTROL_OK := by decide
        subst hcancel
        refine ⟨OnCancel d, by simp [dispatch, OnMessage, hne], rfl, ?_, rfl⟩
        simp [invokesOnOK, hne, OnCancel, Close]
    | GUI_MSG_VALIDITY_CHANGED param1 => simp [closes] at hc
    | GUI_MSG_OTHER => simp [closes] at hc

theorem Open_loop_inactive (env : Env) (session : List Event) (d : Dialog)
    (h : d.m_active = false) : Open_loop env session d = some d := by
  cases session <;> simp [Open_loop, h]

theorem Open_loop_append (env : Env) (c : Event) (rest : List Event) (hc : closes c = true) :
    ∀ (edits : List Event) (d : Dialog), d.m_active = true →
      (∀ e ∈ edits, closes e = false) →
      Open_loop env (edits ++ c :: rest) d =
        match applyEdits env edits d with
        | none => none
        | some d1 => dispatch env d1 c := by
  intro edits
  induction edits with
  | nil =>
    intro d hact _
    obtain ⟨d', hd', hinactive, -, -⟩ := dispatch_closing env d c hc
    simp [Open_loop, hact, applyEdits, hd', Open_loop_inactive env rest d' hinactive]
  | cons e edits ih =>
    intro d hact hedits
    have he : closes e = false := hedits e (List.mem_cons_self e edits)
    cases hd : dispatch env d e with
    | none => simp [Open_loop, hact, applyEdits, hd]
    | some d1 =>
      have hact1 : d1.m_active = true := by
        rw [(dispatch_frame env d d1 e he hd).2, hact]
      simp only [List.cons_append, Open_loop, hact, if_true, hd, applyEdits]
      exact ih d1 hact1 (fun x hx => hedits x (List.mem_cons_of_mem e hx))

theorem Open_loop_some (env : Env) :
    ∀ (session : List Event) (d d' : Dialog), d.m_active = true →
      Open_loop env session d = some d' →
      ∃ c, session.find? closes = some c ∧ d'.m_cancelled = !invokesOnOK c := by
  intro session
  induction session with
  | nil =>
    intro d d' hact h
    simp [Open_loop, hact] at h
  | cons e rest ih =>
    intro d d' hact h
    simp only [Open_loop, hact, if_true] at h
    cases hd : dispatch env d e with
    | none => simp [hd] at h
    | some d1 =>
      simp only [hd] at h
      by_cases hc : closes e = true
      · obtain ⟨d2, hd2, hinactive, hflag, -⟩ := dispatch_closing env d e hc
        rw [hd] at hd2
        cases hd2
        rw [Open_loop_inactive env rest d1 hinactive] at h
        cases h
        exact ⟨e, by simp [List.find?_cons, hc], hflag⟩
      · have hc' : closes e = false := by simpa using hc
        have hact1 : d1.m_active = true := by
          rw [(dispatch_frame env d d1 e hc' hd).2, hact]
        obtain ⟨c, hfind, hflag⟩ := ih d1 d' hact1 h
        exact ⟨c, by simp [List.find?_cons, hc', hfind], hflag⟩

/-- C1. For every field type `GetValidOperators` returns exactly the operators
of the table of the specification, in that order, each paired with the
localised label of that same operator. -/
theorem GetValidOperators_eq_table (env : Env) (rule : Rule) :
    GetValidOperators env rule =
      (specValidOperators (env.GetFieldType rule.m_field)).map
        (fun op => (env.GetLocalizedOperator op, op)) := by
  unfold GetValidOperators
  cases env.GetFieldType rule.m_field <;> rfl

/-- C8. When `UpdateButtons` has run (it does whenever the field is set or the
playlist type has a field to default to) and the rule's field has type Date,
the input type of the value control is text for the operators in-the-last and
not-in-the-last and date for every other operator; a rule whose field is set
is left as it was. -/
theorem UpdateButtons_date_input_type (env : Env) (d : Dialog)
    (h : d.m_rule.m_field ≠ FieldNone ∨ env.GetFields d.m_type ≠ []) :
    ∃ d', UpdateButtons env d = some d' ∧
      (d.m_rule.m_field ≠ FieldNone → d'.m_rule = d.m_rule) ∧
      (env.GetFieldType d'.m_rule.m_field = DATE_FIELD →
        ((d'.m_rule.m_operator = OPERATOR_IN_THE_LAST ∨
            d'.m_rule.m_operator = OPERATOR_NOT_IN_THE_LAST) →
          d'.controls.valueType = INPUT_TYPE_TEXT) ∧
        (¬ (d'.m_rule.m_operator = OPERATOR_IN_THE_LAST ∨
            d'.m_rule.m_operator = OPERATOR_NOT_IN_THE_LAST) →
          d'.controls.valueType = INPUT_TYPE_DATE)) := by
  obtain ⟨d', hd'⟩ := UpdateButtons_isSome env d h
  obtain ⟨-, -, -, -, -, hrule, -, htype⟩ := UpdateButtons_frame env d d' hd'
  refine ⟨d', hd', hrule, ?_⟩
  intro hdate
  rw [htype, hdate]
  constructor
  · intro hop
    simp [UpdateButtons_inputType, hop]
  · intro hop
    simp [UpdateButtons_inputType, hop]

/-- Witness of C8: a Date field with the operator in-the-last is shown with a
text input. -/
theorem UpdateButtons_date_input_type_witness :
    (sampleDialog "movies" ⟨FieldOther 1, OPERATOR_IN_THE_LAST, []⟩).m_rule.m_field ≠ FieldNone ∧
    ∃ d', UpdateButtons sampleEnv
        (sampleDialog "movies" ⟨FieldOther 1, OPERATOR_IN_THE_LAST, []⟩) = some d' ∧
      (sampleEnv.GetFieldType d'.m_rule.m_field = DATE_FIELD ∧
        d'.m_rule.m_operator = OPERATOR_IN_THE_LAST) ∧
      d'.controls.valueType = INPUT_TYPE_TEXT := by
  refine ⟨by decide, ?_⟩
  obtain ⟨d', h1, h2, h3⟩ := UpdateButtons_date_input_type sampleEnv
    (sampleDialog "movies" ⟨FieldOther 1, OPERATOR_IN_THE_LAST, []⟩) (Or.inl (by decide))
  have hrule := h2 (by decide)
  have hdate : sampleEnv.GetFieldType d'.m_rule.m_field = DATE_FIELD := by rw [hrule]; rfl
  have hop : d'.m_rule.m_operator = OPERATOR_IN_THE_LAST := by rw [hrule]; rfl
  exact ⟨d', h1, ⟨hdate, hop⟩, (h3 hdate).1 (Or.inl hop)⟩

/-- C2. When the field picker is confirmed with a selection other than the
preselected current field, `OnField` makes the selected field the rule's field;
an operator that is not valid for the new field is replaced by the first valid
operator and the parameter is cleared; an operator that is valid for the new
field is kept.  `OnField` looks validity up by localised label, so the label of
a valid operator is taken to belong to no other operator. -/
theorem OnField_confirmed_change (env : Env) (d : Dialog) (ui : UserInput) (f : Field)
    (hlabel : labelsIdentifyOperators env)
    (hconf : ui.confirmed = true) (hnew : 0 ≤ ui.selectedItem)
    (hchg : ui.selectedItem ≠ OnField_selected (env.GetFields d.m_type) d.m_rule.m_field)
    (hsel : (env.GetFields d.m_type)[ui.selectedItem.toNat]? = some f)
    (hf : f ≠ FieldNone) :
    ∃ d', OnField env d ui = some d' ∧ d'.m_rule.m_field = f ∧
      (d.m_rule.m_operator ∉ validOperators env d'.m_rule →
        (validOperators env d'.m_rule).head? = some d'.m_rule.m_operator ∧
        d'.m_rule.m_parameter = []) ∧
      (d.m_rule.m_operator ∈ validOperators env d'.m_rule →
        d'.m_rule.m_operator = d.m_rule.m_operator) := by
  have hlt : ¬ ui.selectedItem < 0 := by omega
  obtain ⟨op, rest, hops⟩ := GetValidOperators_head env { d.m_rule with m_field := f }
  by_cases hv : OnField_isValid env (GetValidOperators env { d.m_rule with m_field := f })
      d.m_rule.m_operator = true
  · -- the operator is still valid
    have hmem := (OnField_isValid_of_labels env hlabel _ _).1 hv
    have hrun : OnField env d ui = UpdateButtons env
        { d with m_rule := SetParameter env { d.m_rule with m_field := f } "" } := by
      simp [OnField, hconf, hlt, hchg, hsel, hv]
    have hset : ({ d with m_rule := SetParameter env { d.m_rule with m_field := f } "" } :
        Dialog).m_rule.m_field ≠ FieldNone := hf
    refine ⟨_, hrun.trans (UpdateButtons_of_field_set env _ hset), rfl, ?_, ?_⟩
    · intro hnot
      exact absurd ((validOperators_congr env _ _ rfl).symm ▸ hmem) hnot
    · intro _
      rfl
  · -- the operator is reset to the first valid one
    have hv' : OnField_isValid env (GetValidOperators env { d.m_rule with m_field := f })
        d.m_rule.m_operator = false := by simpa using hv
    have hnmem : d.m_rule.m_operator ∉ validOperators env { d.m_rule with m_field := f } :=
      fun h => hv ((OnField_isValid_of_labels env hlabel _ _).2 h)
    have hrun : OnField env d ui = UpdateButtons env
        { d with m_rule := SetParameter env ⟨f, op.2, d.m_rule.m_parameter⟩ "" } := by
      have hv'' := hv'
      rw [hops] at hv''
      simp [OnField, hconf, hlt, hchg, hsel, hops, hv'']
    have hset : ({ d with m_rule := SetParameter env ⟨f, op.2, d.m_rule.m_parameter⟩ "" } :
        Dialog).m_rule.m_field ≠ FieldNone := hf
    refine ⟨_, hrun.trans (UpdateButtons_of_field_set env _ hset), rfl, ?_, ?_⟩
    · intro _
      refine ⟨?_, by simp [SetParameter]⟩
      have : validOperators env (SetParameter env ⟨f, op.2, d.m_rule.m_parameter⟩ "") =
          validOperators env { d.m_rule with m_field := f } :=
        validOperators_congr env _ _ rfl
      show (validOperators env
        (SetParameter env ⟨f, op.2, d.m_rule.m_parameter⟩ "")).head? = _
      rw [this]
      simp [validOperators, hops, SetParameter]
    · intro hmem
      exact absurd ((validOperators_congr env _ _ rfl) ▸ hmem) hnmem

/-- Witness of C2: with the "songs" fields, the picker moves a rule
"genre contains x" to the year field; "contains" is not valid for a numeric
field, so the rule becomes "year is" with an empty parameter. -/
theorem OnField_confirmed_change_witness :
    ∃ d', OnField sampleEnv (sampleDialog "songs" ⟨FieldGenre, OPERATOR_CONTAINS, ["x"]⟩)
        { noInput with confirmed := true, selectedItem := 1 } = some d' ∧
      d'.m_rule.m_field = FieldYear ∧
      (OPERATOR_CONTAINS ∉ validOperators sampleEnv d'.m_rule →
        (validOperators sampleEnv d'.m_rule).head? = some d'.m_rule.m_operator ∧
        d'.m_rule.m_parameter = []) ∧
      (OPERATOR_CONTAINS ∈ validOperators sampleEnv d'.m_rule →
        d'.m_rule.m_operator = OPERATOR_CONTAINS) :=
  OnField_confirmed_change sampleEnv (sampleDialog "songs" ⟨FieldGenre, OPERATOR_CONTAINS, ["x"]⟩)
    { noInput with confirmed := true, selectedItem := 1 } FieldYear
    sampleEnv_labelsIdentify rfl (by decide) (by decide) (by decide) (by decide)

/-- C10. Given at least as much fuel as there are candidates, the in-place
removal loop returns, and what it returns is the order-preserving filter of
the specification: the candidates that load and, for the playlist-reference
field, are type-compatible with an empty non-mixed group, in their original
order (each relabelled by its declared name).  `playlist.Load` is called on
every candidate exactly once, in order.  For the virtual-folder field only the
candidates that do not load are removed. -/
theorem OnBrowse_removeLoop_refines_filter (env : Env) (m_type : String) (m_field : Field)
    (items : List CFileItem) (fuel : Nat) (hfuel : items.length ≤ fuel) :
    OnBrowse_removeLoop env m_type m_field fuel 0 items [] =
      some (specPlaylistCandidates env m_type m_field items,
        items.map (fun item => item.path)) ∧
    (specPlaylistCandidates env m_type m_field items).map (fun item => item.path) =
      (items.filter (specKeeps env m_type m_field)).map (fun item => item.path) ∧
    (items.filter (specKeeps env m_type m_field)).Sublist items ∧
    (m_field = FieldVirtualFolder →
      specPlaylistCandidates env m_type m_field items =
        (items.filter (fun item => (env.Load item.path).1)).map (OnBrowse_relabel env)) := by
  refine ⟨OnBrowse_removeLoop_eq env m_type m_field items fuel hfuel, ?_, ?_, ?_⟩
  · simp [specPlaylistCandidates, List.map_map, Function.comp_def, OnBrowse_relabel_path]
  · exact List.filter_sublist items
  · intro hfield
    subst hfield
    unfold specPlaylistCandidates
    congr 1
    apply List.filter_congr
    intro item _
    simp [specKeeps]

/-- Witness of C10: five candidates for a "songs" playlist; the one that does
not load, the one with a group and the one of another type go, and the loop
looks at all five paths. -/
theorem OnBrowse_removeLoop_refines_filter_witness :
    sampleCandidates.length ≤ 5 ∧
    OnBrowse_removeLoop sampleEnv "songs" FieldPlaylist 5 0 sampleCandidates [] =
      some ([⟨"a.xsp", "Alpha"⟩, ⟨"d.xsp", "d"⟩],
        ["b.xsp", "e.xsp", "a.xsp", "c.xsp", "d.xsp"]) :=
  ⟨by decide,
    (OnBrowse_removeLoop_refines_filter sampleEnv "songs" FieldPlaylist sampleCandidates 5
      (by decide)).1.trans (by decide)⟩

/-- C4. When the rule's field is the playlist-reference field, `OnBrowse`
reaches the select dialog, and every item it hands to the dialog belongs to a
playlist that loads, is compatible in type with the current playlist type, and
has an empty, non-mixed group.  The sort is taken to only reorder the items. -/
theorem OnBrowse_playlist_items_filtered (env : Env) (d : Dialog)
    (hfield : d.m_rule.m_field = FieldPlaylist)
    (hsort : ∀ (b : Bool) (l : List CFileItem) (item : CFileItem),
      item ∈ env.SortByLabel b l → item ∈ l) :
    ∃ items, OnBrowse_source env d = some (.list items 559) ∧
      ∀ item ∈ (OnBrowse_setup env d items 559).items,
        (env.Load item.path).1 = true ∧
        env.CheckTypeCompatibility d.m_type (env.Load item.path).2.type = true ∧
        (env.Load item.path).2.group = "" ∧
        (env.Load item.path).2.groupMixed = false := by
  have hrun : ∀ items : List CFileItem,
      OnBrowse_removeLoop env d.m_type FieldPlaylist items.length 0 items [] =
        some (specPlaylistCandidates env d.m_type FieldPlaylist items,
          items.map (fun item => item.path)) :=
    fun items => OnBrowse_removeLoop_eq env d.m_type FieldPlaylist items items.length (le_refl _)
  refine ⟨specPlaylistCandidates env d.m_type FieldPlaylist (playlistCandidates env d.m_type),
    ?_, ?_⟩
  · simp only [OnBrowse_source, hfield, hrun, playlistCandidates]
    simp
    split <;> simp
  · intro item hitem
    have hmem := hsort _ _ _ hitem
    simp only [specPlaylistCandidates, List.mem_map, List.mem_filter] at hmem
    obtain ⟨orig, ⟨-, hkeeps⟩, rfl⟩ := hmem
    rw [OnBrowse_relabel_path]
    simpa [specKeeps, and_assoc] using hkeeps

/-- Witness of C4: browsing the playlist field of a "songs" rule offers the two
loadable, compatible, ungrouped playlists. -/
theorem OnBrowse_playlist_items_filtered_witness :
    ∃ items, OnBrowse_source sampleEnv (sampleDialog "songs" ⟨FieldPlaylist, OPERATOR_EQUALS, []⟩) =
        some (.list items 559) ∧
      ∀ item ∈ (OnBrowse_setup sampleEnv
          (sampleDialog "songs" ⟨FieldPlaylist, OPERATOR_EQUALS, []⟩) items 559).items,
        (sampleEnv.Load item.path).1 = true ∧
        sampleEnv.CheckTypeCompatibility "songs" (sampleEnv.Load item.path).2.type = true ∧
        (sampleEnv.Load item.path).2.group = "" ∧
        (sampleEnv.Load item.path).2.groupMixed = false :=
  OnBrowse_playlist_items_filtered sampleEnv
    (sampleDialog "songs" ⟨FieldPlaylist, OPERATOR_EQUALS, []⟩) rfl
    (fun _ _ _ h => h)

/-- C6. A confirmed browse of a list-browsed field replaces the parameter by
the labels of the items the select dialog reports as selected, in the order
it reports them, and keeps none of the previous values.  The dialog is
single-select exactly for the playlist-reference and virtual-folder fields,
and when it reports one selected item the parameter is exactly that item's
label.  Field and operator are left alone. -/
theorem OnBrowse_confirmed_replaces_parameter (env : Env) (d : Dialog) (ui : UserInput)
    (items : List CFileItem) (iLabel : Nat)
    (hsrc : OnBrowse_source env d = some (.list items iLabel))
    (hconf : ui.confirmed = true)
    (hrange : ∀ i ∈ ui.selectedItems,
      0 ≤ i ∧ i.toNat < (OnBrowse_setup env d items iLabel).items.length) :
    ∃ d', OnBrowse env d ui = some d' ∧
      d'.m_rule.m_field = d.m_rule.m_field ∧
      d'.m_rule.m_operator = d.m_rule.m_operator ∧
      d'.m_rule.m_parameter.map some =
        ui.selectedItems.map (fun i =>
          ((OnBrowse_setup env d items iLabel).items[i.toNat]?).map (fun item => item.label)) ∧
      ((OnBrowse_setup env d items iLabel).multiSelection = false ↔
        (d.m_rule.m_field = FieldPlaylist ∨ d.m_rule.m_field = FieldVirtualFolder)) ∧
      (∀ i, ui.selectedItems = [i] →
        ∃ item, (OnBrowse_setup env d items iLabel).items[i.toNat]? = some item ∧
          d'.m_rule.m_parameter = [item.label]) := by
  obtain ⟨labels, hrun, hmap⟩ :=
    OnBrowse_selectedLabels_spec (OnBrowse_setup env d items iLabel).items ui.selectedItems []
      hrange
  have hset : d.m_rule.m_field ≠ FieldNone := OnBrowse_source_field_set env d _ hsrc
  have hset' : ({ d with m_rule := { d.m_rule with m_parameter := labels } } :
      Dialog).m_rule.m_field ≠ FieldNone := hset
  have hout : OnBrowse env d ui =
      UpdateButtons env { d with m_rule := { d.m_rule with m_parameter := labels } } := by
    simp only [OnBrowse, hsrc, hconf, if_true, hrun, List.nil_append]
  refine ⟨_, hout.trans (UpdateButtons_of_field_set env _ hset'), rfl, rfl, hmap, ?_, ?_⟩
  · simp only [OnBrowse_setup]
    by_cases h1 : d.m_rule.m_field = FieldPlaylist
    · simp [h1]
    · by_cases h2 : d.m_rule.m_field = FieldVirtualFolder
      · simp [h2]
      · simp [h1, h2]
  · intro i hi
    have hi' := hrange i (by rw [hi]; exact List.mem_singleton_self i)
    obtain ⟨item, hitem⟩ :
        ∃ item, (OnBrowse_setup env d items iLabel).items[i.toNat]? = some item :=
      ⟨_, List.getElem?_eq_getElem hi'.2⟩
    refine ⟨item, hitem, ?_⟩
    have hmap' : labels.map some = [some item.label] := by
      rw [hmap, hi]
      simp [hitem]
    have hinj : Function.Injective (List.map (some : String → Option String)) :=
      List.map_injective_iff.2 (Option.some_injective _)
    exact hinj (by simpa using hmap')

/-- Witness of C6: browsing the genre of a "songs" rule and confirming the
third and the first entry leaves exactly these two labels, in that order. -/
theorem OnBrowse_confirmed_replaces_parameter_witness :
    ∃ d', OnBrowse sampleEnv (sampleDialog "songs" ⟨FieldGenre, OPERATOR_EQUALS, ["Pop"]⟩)
        { noInput with confirmed := true, selectedItems := [2, 0] } = some d' ∧
      d'.m_rule.m_parameter = ["Folk", "Rock"] := by
  obtain ⟨d', hrun, -, -, hmap, -, -⟩ :=
    OnBrowse_confirmed_replaces_parameter sampleEnv
      (sampleDialog "songs" ⟨FieldGenre, OPERATOR_EQUALS, ["Pop"]⟩)
      { noInput with confirmed := true, selectedItems := [2, 0] }
      [⟨"musicdb://genres/1/", "Rock"⟩, ⟨"musicdb://genres/2/", "Jazz"⟩,
        ⟨"musicdb://genres/3/", "Folk"⟩] 515 (by decide) rfl (by decide)
  refine ⟨d', hrun, ?_⟩
  have hinj : Function.Injective (List.map (some : String → Option String)) :=
    List.map_injective_iff.2 (Option.some_injective _)
  exact hinj (hmap.trans (by decide))

/-- C9 (the code departs from the claim).  For the path field with two or more
parameter values, a dismissed directory chooser does not leave the rule as it
was: `OnBrowse` clears the parameter and stores back the single joined string
`GetParameter()` (or nothing when that string is empty), so at most one value
is left. -/
theorem OnBrowse_path_dismissed_rewrites_parameter (env : Env) (d : Dialog) (ui : UserInput)
    (hfield : d.m_rule.m_field = FieldPath) (hdismiss : ui.directory = none)
    (hmany : 2 ≤ d.m_rule.m_parameter.length) :
    ∃ d', OnBrowse env d ui = some d' ∧
      d'.m_rule.m_parameter =
        (if env.GetParameter d.m_rule.m_parameter ≠ "" then
          [env.GetParameter d.m_rule.m_parameter] else []) ∧
      d'.m_rule.m_parameter.length ≤ 1 ∧
      d'.m_rule ≠ d.m_rule := by
  have hne : d.m_rule.m_parameter ≠ [] := by
    intro h
    rw [h] at hmany
    simp at hmany
  have hset : ({ d with m_rule := { d.m_rule with
      m_parameter := (if env.GetParameter d.m_rule.m_parameter ≠ "" then
        [env.GetParameter d.m_rule.m_parameter] else []) } } : Dialog).m_rule.m_field ≠
      FieldNone := by
    show d.m_rule.m_field ≠ FieldNone
    rw [hfield]
    decide
  have hout : OnBrowse env d ui = UpdateButtons env { d with m_rule := { d.m_rule with
      m_parameter := (if env.GetParameter d.m_rule.m_parameter ≠ "" then
        [env.GetParameter d.m_rule.m_parameter] else []) } } := by
    simp only [OnBrowse, OnBrowse_source_of_path env d hfield, OnBrowse_path,
      ShowAndGetDirectory, hdismiss, hne, ne_eq, not_false_eq_true, if_true, push_back,
      List.nil_append]
  have hlen : (if env.GetParameter d.m_rule.m_parameter ≠ "" then
      [env.GetParameter d.m_rule.m_parameter] else []).length ≤ 1 := by
    split <;> simp
  refine ⟨_, hout.trans (UpdateButtons_of_field_set env _ hset), rfl, hlen, ?_⟩
  intro heq
  have hpar : (if env.GetParameter d.m_rule.m_parameter ≠ "" then
      [env.GetParameter d.m_rule.m_parameter] else []) = d.m_rule.m_parameter :=
    congrArg Rule.m_parameter heq
  rw [hpar] at hlen
  omega

/-- Witness of C9's departure: a path rule with the two values "/music/a/" and
"/music/b/"; after a dismissed chooser the parameter is the one value
"/music/a/ / /music/b/". -/
theorem OnBrowse_path_dismissed_rewrites_parameter_witness :
    ∃ d', OnBrowse sampleEnv
        (sampleDialog "songs" ⟨FieldPath, OPERATOR_STARTS_WITH, ["/music/a/", "/music/b/"]⟩)
        noInput = some d' ∧
      d'.m_rule.m_parameter = ["/music/a/ / /music/b/"] ∧
      d'.m_rule ≠ ⟨FieldPath, OPERATOR_STARTS_WITH, ["/music/a/", "/music/b/"]⟩ := by
  obtain ⟨d', hrun, hpar, -, hne⟩ := OnBrowse_path_dismissed_rewrites_parameter sampleEnv
    (sampleDialog "songs" ⟨FieldPath, OPERATOR_STARTS_WITH, ["/music/a/", "/music/b/"]⟩)
    noInput rfl rfl (by decide)
  exact ⟨d', hrun, hpar.trans (by decide), hne⟩

/-- C3, counterexample.  The rule "genre contains x" is edited for a "songs"
playlist: the field picker moves it to the year field, then the session is
closed by the back action.  `EditRule` returns false, and the caller's rule
object is "year is" with an empty parameter, not the rule passed in. -/
theorem EditRule_back_modifies_rule :
    ∃ r, EditRule sampleEnv (some freshDialog) sampleRule "songs"
        [.message (.GUI_MSG_CLICKED CONTROL_FIELD)
            { noInput with confirmed := true, selectedItem := 1 },
          .back 0] = some r ∧
      r.confirmed = false ∧ r.rule = ⟨FieldYear, OPERATOR_EQUALS, []⟩ ∧ r.rule ≠ sampleRule :=
  ⟨_, rfl, rfl, rfl, by decide⟩

/-- C3, amended.  For a session whose edits close nothing and which the back
action then closes, `EditRule` returns false and the caller's rule object is
the dialog's working rule at that moment: the rule passed in, after the window
initialisation and the edits of the session.  Window initialisation leaves a
rule with a set field as it is. -/
theorem EditRule_back (env : Env) (editor d0 d1 : Dialog) (rule : Rule) (type : String)
    (edits rest : List Event) (actionID : Int)
    (hedits : ∀ e ∈ edits, closes e = false)
    (hinit : OnInitWindow env
      { editor with m_rule := rule, m_type := type, m_active := true } = some d0)
    (hrun : applyEdits env edits d0 = some d1) :
    EditRule env (some editor) rule type (edits ++ .back actionID :: rest) =
      some { confirmed := false, rule := d1.m_rule,
             editor := some (OnDeinitWindow (OnBack d1 actionID)) } ∧
    (rule.m_field ≠ FieldNone → d0.m_rule = rule) := by
  have hact : d0.m_active = true := (UpdateButtons_frame env _ d0 hinit).2.2.2.2.1
  have hloop := Open_loop_append env (.back actionID) rest rfl edits d0 hact hedits
  rw [hrun] at hloop
  constructor
  · have hinit' : OnInitWindow env
        { ({ ({ editor with m_rule := rule } : Dialog) with m_type := type } : Dialog) with
          m_active := true } = some d0 := hinit
    simp only [EditRule, Open, hinit', hloop, dispatch]
    rfl
  · intro hset
    exact (UpdateButtons_frame env _ d0 hinit).2.2.2.2.2.1 hset

/-- Witness of C3, amended: the session of the counterexample. -/
theorem EditRule_back_witness :
    (∀ e ∈ [Event.message (.GUI_MSG_CLICKED CONTROL_FIELD)
        { noInput with confirmed := true, selectedItem := 1 }], closes e = false) ∧
    ∃ d1 : Dialog, d1.m_rule = ⟨FieldYear, OPERATOR_EQUALS, []⟩ ∧
      EditRule sampleEnv (some freshDialog) sampleRule "songs"
        ([.message (.GUI_MSG_CLICKED CONTROL_FIELD)
            { noInput with confirmed := true, selectedItem := 1 }] ++ .back 0 :: []) =
        some { confirmed := false, rule := d1.m_rule,
               editor := some (OnDeinitWindow (OnBack d1 0)) } :=
  ⟨by decide, _, rfl,
    (EditRule_back sampleEnv freshDialog _ _ sampleRule "songs"
      [.message (.GUI_MSG_CLICKED CONTROL_FIELD)
        { noInput with confirmed := true, selectedItem := 1 }] [] 0 (by decide) rfl rfl).1⟩

/-- C7, counterexample.  The flag is not true from the creation of the dialog:
the constructor clears it.  Nor is it true at the start of every session: a
session confirmed with OK leaves it false in the dialog instance, and
`EditRule` does not set it before the next session. -/
theorem cancelled_flag_false_at_creation :
    freshDialog.m_cancelled = false ∧
    ∃ r editor, EditRule sampleEnv (some freshDialog) sampleRule "songs"
        [.message (.GUI_MSG_CLICKED CONTROL_OK) noInput] = some r ∧
      r.confirmed = true ∧ r.editor = some editor ∧ editor.m_cancelled = false ∧
      ∃ d0, OnInitWindow sampleEnv
          { editor with m_rule := sampleRule, m_type := "songs", m_active := true } = some d0 ∧
        d0.m_cancelled = false :=
  ⟨rfl, _, _, rfl, rfl, rfl, rfl, _, rfl, rfl⟩

/-- C7, amended.  The constructor leaves the cancelled flag false, and
`EditRule` starts a session with the flag as the dialog instance holds it.
`OnBack` and `OnCancel` set the flag, `OnOK` clears it, and a session ends only
through one of the three; so when `EditRule` returns, its result says whether
the event that closed the session ran `OnOK`, and it is false for every
session in which `OnOK` was not invoked. -/
theorem EditRule_confirmed_iff_closed_by_OnOK (env : Env) (base : Dialog)
    (editor : Option Dialog) (rule : Rule) (type : String) (session : List Event)
    (r : EditResult) (h : EditRule env editor rule type session = some r) :
    (ctor base).m_cancelled = false ∧
    (∀ ed d0, editor = some ed →
      OnInitWindow env { ed with m_rule := rule, m_type := type, m_active := true } = some d0 →
      d0.m_cancelled = ed.m_cancelled) ∧
    (∀ ed, editor = some ed →
      ∃ c, session.find? closes = some c ∧ r.confirmed = invokesOnOK c) ∧
    ((∀ e ∈ session, invokesOnOK e = false) → r.confirmed = false) := by
  have hclosed : ∀ ed, editor = some ed →
      ∃ c, session.find? closes = some c ∧ r.confirmed = invokesOnOK c := by
    intro ed hed
    subst hed
    simp only [EditRule, Open] at h
    cases hinit : OnInitWindow env
        { ({ ({ ed with m_rule := rule } : Dialog) with m_type := type } : Dialog) with
          m_active := true } with
    | none => simp [hinit] at h
    | some d0 =>
      simp only [hinit] at h
      cases hloop : Open_loop env session d0 with
      | none => simp [hloop] at h
      | some d1 =>
        simp only [hloop, Option.some.injEq] at h
        have hact : d0.m_active = true := (UpdateButtons_frame env _ d0 hinit).2.2.2.2.1
        obtain ⟨c, hfind, hflag⟩ := Open_loop_some env session d0 d1 hact hloop
        refine ⟨c, hfind, ?_⟩
        rw [← h]
        show (!(OnDeinitWindow d1).m_cancelled) = invokesOnOK c
        have : (OnDeinitWindow d1).m_cancelled = d1.m_cancelled := rfl
        rw [this, hflag]
        simp
  refine ⟨rfl, ?_, hclosed, ?_⟩
  · intro ed d0 _ hinit
    exact (UpdateButtons_frame env _ d0 hinit).2.2.2.1
  · intro hall
    cases editor with
    | none =>
      simp only [EditRule, Option.some.injEq] at h
      rw [← h]
    | some ed =>
      obtain ⟨c, hfind, hconf⟩ := hclosed ed rfl
      rw [hconf]
      exact hall c (List.mem_of_find?_eq_some hfind)

/-- Witness of C7, amended: a session ended by the back action returns
false. -/
theorem EditRule_confirmed_iff_closed_by_OnOK_witness :
    ∃ r, EditRule sampleEnv (some freshDialog) sampleRule "songs" [.back 0] = some r ∧
      (∀ e ∈ [Event.back 0], invokesOnOK e = false) ∧ r.confirmed = false :=
  ⟨_, rfl, by decide,
    (EditRule_confirmed_iff_closed_by_OnOK sampleEnv freshDialog (some freshDialog) sampleRule
      "songs" [.back 0] _ rfl).2.2.2 (by decide)⟩

end CGUIDialogSmartPlaylistRule
